import Mathlib

/-!
# Go-Todo: the request handlers of `main.go` over a model of the todo collection

The program is four fiber handlers (`getTodos`, `createTodo`, `updateTodo`,
`deleteTodo`) over one MongoDB collection.  The handlers are embedded statement by
statement.  What they call into is modelled as follows.

* `c.Params("id")` is the handler's `id : String` argument.
* `c.BodyParser` is the handler's `parsed` argument: the `Todo` (for `createTodo`) or
  the `map[string]interface{}` (for `updateTodo`) it decoded, or the error it returned.
* The package variable `collection` is threaded through: every handler takes the
  collection and returns its response together with the collection afterwards.
* A collection is the list of its documents in iteration order; no two documents
  share an `_id` (the unique index every MongoDB collection has on `_id`).
  The collection is written only by these handlers, so a document has the
  fields `_id`, `completed` and `desc`; the two last hold arbitrary values, because
  `$set` stores whatever value the request body carried.
* A stored document is a todo record when it decodes as a `Todo` (`decodeTodo`); the
  documents `createTodo` writes are todo records, and `updateTodo` can leave a document
  that is none.
* The identifier the driver generates for a document inserted without `_id` is the
  `generated` argument of `createTodo`.
* A handler that returns an error is answered by fiber's default error handler
  (`serve`).  Connection failures of the database are outside the model.
-/

namespace GoTodo

/-! ## Identifiers -/

/-- A `primitive.ObjectID`: twelve bytes, kept as the big-endian number they spell. -/
structure ObjectID where
  val : Nat
deriving DecidableEq, Repr

/-- The zero value `primitive.NilObjectID`. -/
def NilObjectID : ObjectID := ⟨0⟩

/-- The method `ObjectID.IsZero`. -/
def ObjectID.IsZero (id : ObjectID) : Bool := decide (id = NilObjectID)

/-- The value of one hexadecimal digit, as `encoding/hex` reads it. -/
def fromHexChar (c : Char) : Option Nat :=
  if '0' ≤ c ∧ c ≤ '9' then some (c.toNat - '0'.toNat)
  else if 'a' ≤ c ∧ c ≤ 'f' then some (c.toNat - 'a'.toNat + 10)
  else if 'A' ≤ c ∧ c ≤ 'F' then some (c.toNat - 'A'.toNat + 10)
  else none

/-- The loop of `hex.Decode`: fails at the first character that is no hex digit. -/
def hexDecode : List Char → Nat → Option Nat
  | [], acc => some acc
  | c :: cs, acc =>
    match fromHexChar c with
    | none => none
    | some d => hexDecode cs (acc * 16 + d)

/-- The function `primitive.ObjectIDFromHex`: the string must be 24 bytes long and
every byte a hex digit. -/
def ObjectIDFromHex (s : String) : Option ObjectID :=
  if s.utf8ByteSize ≠ 24 then none
  else (hexDecode s.data 0).map ObjectID.mk

/-! ## Values, todos and documents -/

/-- A value as `encoding/json` decodes it into `interface{}`, which is also the value
the driver stores for it (null, boolean, double, string, array, embedded document).
Numbers are kept as integers; only their being zero or not is ever observed. -/
inductive Value where
  | null
  | bool (b : Bool)
  | number (n : Int)
  | string (s : String)
  | array (items : List Value)
  | object (fields : List (String × Value))

/-- The struct `Todo` (`main.go`, lines 18-22). -/
structure Todo where
  ID : ObjectID
  Completed : Bool
  Desc : String
deriving DecidableEq, Repr

/-- A stored document of the collection. -/
structure Document where
  id : ObjectID
  completed : Value
  desc : Value

/-- An error value a handler can return. -/
inductive Error where
  | fiber (code : Nat) (message : String)
  | noDocuments
  | duplicateKey
  | decode (message : String)
deriving DecidableEq, Repr

/-- A value of a `fiber.Map` that the handlers send. -/
inductive Field where
  | text (s : String)
  | todo (t : Todo)
deriving DecidableEq, Repr

/-- What a response carries: a `fiber.Map` (keys in the order JSON encodes them), one
todo, an array of todos, or plain text. -/
inductive Payload where
  | map (entries : List (String × Field))
  | todo (t : Todo)
  | todos (ts : List Todo)
  | text (s : String)
deriving DecidableEq, Repr

/-- An HTTP response: status code and payload. -/
structure Response where
  status : Nat
  body : Payload
deriving DecidableEq, Repr

/-- The text of an error (`err.Error()`). -/
def Error.message : Error → String
  | .fiber _ m => m
  | .noDocuments => "mongo: no documents in result"
  | .duplicateKey => "E11000 duplicate key error"
  | .decode m => m

/-- The function `fiber.DefaultErrorHandler`: status 500 unless the error is a
`*fiber.Error`, which carries its own code. -/
def DefaultErrorHandler (err : Error) : Response :=
  match err with
  | .fiber code m => ⟨code, .text m⟩
  | e => ⟨500, .text e.message⟩

/-- The response the client receives for what a handler returned. -/
def serve (r : Except Error Response) : Response :=
  match r with
  | .ok resp => resp
  | .error err => DefaultErrorHandler err

/-! ## The driver: encoding and decoding -/

/-- The driver decoding a stored value into a Go `bool`. -/
def decodeBool : Value → Except Error Bool
  | .bool b => .ok b
  | .number n => .ok (decide (n ≠ 0))
  | .null => .ok false
  | .string _ => .error (.decode "cannot decode string into a boolean")
  | .array _ => .error (.decode "cannot decode array into a boolean")
  | .object _ => .error (.decode "cannot decode embedded document into a boolean")

/-- The driver decoding a stored value into a Go `string`. -/
def decodeString : Value → Except Error String
  | .string s => .ok s
  | .null => .ok ""
  | .bool _ => .error (.decode "cannot decode boolean into a string type")
  | .number _ => .error (.decode "cannot decode double into a string type")
  | .array _ => .error (.decode "cannot decode array into a string type")
  | .object _ => .error (.decode "cannot decode embedded document into a string type")

/-- Decoding a document into a `Todo` (`Decode(&todo)`): the fields in document order. -/
def decodeTodo (d : Document) : Except Error Todo :=
  match decodeBool d.completed with
  | .error err => .error err
  | .ok completed =>
    match decodeString d.desc with
    | .error err => .error err
    | .ok desc => .ok ⟨d.id, completed, desc⟩

/-- The document the driver writes for a `Todo` under the identifier `id`. -/
def encodeTodo (id : ObjectID) (t : Todo) : Document :=
  ⟨id, .bool t.Completed, .string t.Desc⟩

/-! ## The driver: the collection -/

/-- The first document with the given `_id`. -/
def findDoc (i : ObjectID) : List Document → Option Document
  | [] => none
  | d :: ds => if d.id = i then some d else findDoc i ds

/-- Replace the first document with the given `_id` by its image under `f`. -/
def updateFirst (i : ObjectID) (f : Document → Document) : List Document → List Document
  | [] => []
  | d :: ds => if d.id = i then f d :: ds else d :: updateFirst i f ds

/-- Remove the first document with the given `_id`. -/
def removeFirst (i : ObjectID) : List Document → List Document
  | [] => []
  | d :: ds => if d.id = i then ds else d :: removeFirst i ds

/-- The operator `$set` on one field of a document.  The document model has no field
besides `completed` and `desc`; `updateTodo` passes no other key. -/
def setField (d : Document) (kv : String × Value) : Document :=
  if kv.1 = "completed" then { d with completed := kv.2 }
  else if kv.1 = "desc" then { d with desc := kv.2 }
  else d

/-- The operator `$set` with all its fields. -/
def applySet (fields : List (String × Value)) (d : Document) : Document :=
  fields.foldl setField d

/-- The identifiers of a list of documents. -/
def ids (ds : List Document) : List ObjectID := ds.map Document.id

/-- The collection `golang_db.todos`: its documents in iteration order, no two with
the same `_id`. -/
structure Collection where
  docs : List Document
  uniqueIds : (ids docs).Nodup

/-- The collection without documents. -/
def Collection.empty : Collection := ⟨[], List.nodup_nil⟩

/-- The identifier a todo is inserted under: the `_id` field is `omitempty`, so a zero
`ID` is left out and the driver generates one; any other `ID` is written as it is. -/
def insertedID (todo : Todo) (generated : ObjectID) : ObjectID :=
  if todo.ID.IsZero then generated else todo.ID

/-- The method `Collection.InsertOne`: the identifier inserted and the collection
afterwards, or a duplicate key error when a document already has that `_id`. -/
def Collection.InsertOne (coll : Collection) (todo : Todo) (generated : ObjectID) :
    Except Error ObjectID × Collection :=
  if h : insertedID todo generated ∈ ids coll.docs then (.error .duplicateKey, coll)
  else
    (.ok (insertedID todo generated),
      ⟨coll.docs ++ [encodeTodo (insertedID todo generated) todo], by
        have hu := coll.uniqueIds
        simp only [ids, List.map_append, List.map_cons, List.map_nil] at h hu ⊢
        rw [List.nodup_append]
        refine ⟨hu, List.nodup_singleton _, ?_⟩
        intro a ha hb
        rw [List.mem_singleton] at hb
        subst hb
        exact h ha⟩)

/-- The method `Collection.Find` with the empty filter: every document, in order. -/
def Collection.Find (coll : Collection) : List Document := coll.docs

/-- The method `Collection.FindOne` with the filter `_id = i`. -/
def Collection.FindOne (coll : Collection) (i : ObjectID) : Except Error Document :=
  match findDoc i coll.docs with
  | none => .error .noDocuments
  | some d => .ok d

/-- The method `Collection.FindOneAndUpdate` with the filter `_id = i` and the update
`$set`: the matching document as it was before the update, and the collection
afterwards. -/
def Collection.FindOneAndUpdate (coll : Collection) (i : ObjectID)
    (set : List (String × Value)) : Except Error Document × Collection :=
  match findDoc i coll.docs with
  | none => (.error .noDocuments, coll)
  | some d =>
    (.ok d,
      ⟨updateFirst i (applySet set) coll.docs, by
        have hset : ∀ (fields : List (String × Value)) (e : Document),
            (fields.foldl setField e).id = e.id := by
          intro fields
          induction fields with
          | nil => intro e; rfl
          | cons kv rest ih =>
            intro e
            rw [List.foldl_cons, ih]
            unfold setField
            split
            · rfl
            · split <;> rfl
        have hids : ∀ ds : List Document, ids (updateFirst i (applySet set) ds) = ids ds := by
          intro ds
          induction ds with
          | nil => rfl
          | cons e rest ih =>
            unfold updateFirst
            split
            · simp [ids, applySet, hset]
            · simp only [ids, List.map_cons] at ih ⊢
              rw [ih]
        rw [hids]
        exact coll.uniqueIds⟩)

/-- The method `Collection.DeleteOne` with the filter `_id = i`. -/
def Collection.DeleteOne (coll : Collection) (i : ObjectID) : Collection :=
  ⟨removeFirst i coll.docs, by
    have hsub : ∀ ds : List Document, (ids (removeFirst i ds)).Sublist (ids ds) := by
      intro ds
      induction ds with
      | nil => exact List.Sublist.refl _
      | cons e rest ih =>
        unfold removeFirst
        split
        · exact List.sublist_cons_self _ _
        · simpa [ids] using ih
    exact (hsub coll.docs).nodup coll.uniqueIds⟩

/-! ## The handlers -/

/-- The cursor loop of `getTodos` (lines 90-96): decode every document, return at the
first error. -/
def decodeCursor : List Document → Except Error (List Todo)
  | [] => .ok []
  | d :: ds =>
    match decodeTodo d with
    | .error err => .error err
    | .ok todo =>
      match decodeCursor ds with
      | .error err => .error err
      | .ok todos => .ok (todo :: todos)

/-- The handler `getTodos` (`main.go`, lines 77-117). -/
def getTodos (collection : Collection) (id : String) : Except Error Response × Collection :=
  if id = "" then
    match decodeCursor collection.Find with
    | .error err => (.error err, collection)
    | .ok todos =>
      if todos.length = 0 then
        (.ok ⟨200, .map [("data", .text "Todos Not Available")]⟩, collection)
      else (.ok ⟨200, .todos todos⟩, collection)
  else
    match ObjectIDFromHex id with
    | none => (.ok ⟨400, .map [("error", .text "Invalid todo ID")]⟩, collection)
    | some objectID =>
      match collection.FindOne objectID with
      | .error err => (.error err, collection)
      | .ok doc =>
        match decodeTodo doc with
        | .error err => (.error err, collection)
        | .ok data => (.ok ⟨200, .todo data⟩, collection)

/-- The handler `createTodo` (`main.go`, lines 119-137). -/
def createTodo (collection : Collection) (parsed : Except Error Todo)
    (generated : ObjectID) : Except Error Response × Collection :=
  match parsed with
  | .error err => (.error err, collection)
  | .ok todo =>
    if todo.Desc = "" then
      (.ok ⟨400, .map [("error", .text "Todo Description cannot be empty")]⟩, collection)
    else
      match collection.InsertOne todo generated with
      | (.error err, coll) => (.error err, coll)
      | (.ok oid, coll) =>
        (.ok ⟨201, .map [("data", .todo { todo with ID := oid }),
            ("message", .text "Todo Created Successfully")]⟩, coll)

/-- The map `updateFields` that `updateTodo` builds from the body (lines 152-158). -/
def updateFieldsOf (body : List (String × Value)) : List (String × Value) :=
  (match body.lookup "completed" with
    | some completed => [("completed", completed)]
    | none => []) ++
  (match body.lookup "desc" with
    | some desc => [("desc", desc)]
    | none => [])

/-- The handler `updateTodo` (`main.go`, lines 139-171). -/
def updateTodo (collection : Collection) (id : String)
    (parsed : Except Error (List (String × Value))) : Except Error Response × Collection :=
  match ObjectIDFromHex id with
  | none => (.ok ⟨400, .map [("error", .text "Invalid todo ID")]⟩, collection)
  | some objectID =>
    match parsed with
    | .error _ => (.ok ⟨400, .map [("error", .text "Invalid request body")]⟩, collection)
    | .ok body =>
      if (updateFieldsOf body).length = 0 then
        (.ok ⟨400, .map [("error", .text "No valid fields to update")]⟩, collection)
      else
        match collection.FindOneAndUpdate objectID (updateFieldsOf body) with
        | (.error _, coll) =>
          (.ok ⟨404, .map [("error", .text "Todo not found or failed to update")]⟩, coll)
        | (.ok doc, coll) =>
          match decodeTodo doc with
          | .error _ =>
            (.ok ⟨404, .map [("error", .text "Todo not found or failed to update")]⟩, coll)
          | .ok updatedTodo =>
            (.ok ⟨200, .map [("data", .todo updatedTodo),
                ("message", .text "Todo Updated Successfully")]⟩, coll)

/-- The handler `deleteTodo` (`main.go`, lines 173-186). -/
def deleteTodo (collection : Collection) (id : String) : Except Error Response × Collection :=
  match ObjectIDFromHex id with
  | none => (.ok ⟨400, .map [("error", .text "Invalid todo ID")]⟩, collection)
  | some objectID =>
    (.ok ⟨200, .map [("message", .text "Todo Deleted Successfully")]⟩,
      collection.DeleteOne objectID)

/-! ## Definitions used to state the properties -/

/-- Follows the spec's words: a hexadecimal digit. -/
def isHexDigit (c : Char) : Bool :=
  c.isDigit || (decide ('a' ≤ c) && decide (c ≤ 'f')) || (decide ('A' ≤ c) && decide (c ≤ 'F'))

/-- Follows the spec's words: a well-formed storage identifier is a 24-character hex
string. -/
def WellFormedID (s : String) : Prop := s.length = 24 ∧ ∀ c ∈ s.data, isHexDigit c = true

/-- A key of the update body that `updateTodo` recognizes. -/
def recognized (k : String) : Bool := decide (k = "completed") || decide (k = "desc")

/-- The description of a stored document is a non-empty text. -/
def NonEmptyDesc (d : Document) : Prop :=
  match d.desc with
  | .string s => s ≠ ""
  | _ => False

/-- The invariant of the data model: every stored todo has a non-empty description
and no two stored todos share an identifier. -/
def Invariant (coll : Collection) : Prop :=
  (∀ d ∈ coll.docs, NonEmptyDesc d) ∧ (ids coll.docs).Nodup

/-- The collection holding the one todo "buy milk" under the identifier 10. -/
def milk : Collection :=
  ⟨[⟨⟨10⟩, .bool false, .string "buy milk"⟩], by decide⟩

/-- The path parameter that spells the identifier 10. -/
def milkID : String := "00000000000000000000000a"

/-! ## The collection: lemmas -/

theorem findDoc_some {i : ObjectID} {ds : List Document} {d : Document}
    (h : findDoc i ds = some d) : d ∈ ds ∧ d.id = i := by
  induction ds with
  | nil => simp [findDoc] at h
  | cons e rest ih =>
    unfold findDoc at h
    split at h
    · rename_i he
      cases h
      exact ⟨List.mem_cons_self _ _, he⟩
    · exact ⟨List.mem_cons_of_mem _ (ih h).1, (ih h).2⟩

theorem findDoc_of_mem {ds : List Document} (hu : (ids ds).Nodup) {d : Document}
    (hd : d ∈ ds) : findDoc d.id ds = some d := by
  induction ds with
  | nil => cases hd
  | cons e rest ih =>
    simp only [ids, List.map_cons, List.nodup_cons] at hu
    unfold findDoc
    rcases List.mem_cons.mp hd with rfl | hmem
    · simp
    · have hne : e.id ≠ d.id := by
        intro he
        exact hu.1 (he ▸ List.mem_map_of_mem Document.id hmem)
      rw [if_neg hne]
      exact ih hu.2 hmem

theorem removeFirst_eq_filter (i : ObjectID) (ds : List Document) (hu : (ids ds).Nodup) :
    removeFirst i ds = ds.filter (fun d => decide (d.id ≠ i)) := by
  induction ds with
  | nil => rfl
  | cons e rest ih =>
    simp only [ids, List.map_cons, List.nodup_cons] at hu
    unfold removeFirst
    by_cases he : e.id = i
    · have hall : ∀ d ∈ rest, d.id ≠ i := by
        intro d hd hdi
        exact hu.1 (he ▸ hdi ▸ List.mem_map_of_mem Document.id hd)
      simp only [he, if_true, ne_eq, not_true_eq_false, decide_False, List.filter_cons_of_neg,
        Bool.false_eq_true, not_false_eq_true]
      symm
      rw [List.filter_eq_self]
      intro d hd
      simpa using hall d hd
    · simp [he, ih hu.2]

theorem FindOneAndUpdate_found {coll : Collection} {i : ObjectID}
    (set : List (String × Value)) {d : Document} (h : findDoc i coll.docs = some d) :
    (coll.FindOneAndUpdate i set).1 = .ok d ∧
    (coll.FindOneAndUpdate i set).2.docs = updateFirst i (applySet set) coll.docs := by
  unfold Collection.FindOneAndUpdate
  split
  · rename_i h0
    rw [h] at h0
    cases h0
  · rename_i e h0
    rw [h] at h0
    cases h0
    exact ⟨rfl, rfl⟩

theorem FindOneAndUpdate_missing {coll : Collection} {i : ObjectID}
    (set : List (String × Value)) (h : findDoc i coll.docs = none) :
    coll.FindOneAndUpdate i set = (.error .noDocuments, coll) := by
  unfold Collection.FindOneAndUpdate
  split
  · rfl
  · rename_i e h0
    rw [h] at h0
    cases h0

theorem Collection.ext_docs {a b : Collection} (h : a.docs = b.docs) : a = b := by
  cases a
  cases b
  cases h
  rfl

theorem decodeCursor_all {ds : List Document}
    (h : ∀ d ∈ ds, ∃ t, decodeTodo d = .ok t) :
    ∃ todos, decodeCursor ds = .ok todos ∧
      List.Forall₂ (fun d t => decodeTodo d = .ok t) ds todos := by
  induction ds with
  | nil => exact ⟨[], rfl, List.Forall₂.nil⟩
  | cons e rest ih =>
    obtain ⟨t, ht⟩ := h e (List.mem_cons_self _ _)
    obtain ⟨ts, hts, hall⟩ := ih (fun d hd => h d (List.mem_cons_of_mem _ hd))
    refine ⟨t :: ts, ?_, List.Forall₂.cons ht hall⟩
    simp only [decodeCursor, ht, hts]

theorem getTodos_collection (collection : Collection) (id : String) :
    (getTodos collection id).2 = collection := by
  unfold getTodos
  split
  · split
    · rfl
    · split <;> rfl
  · split
    · rfl
    · split
      · rfl
      · split <;> rfl

theorem lookup_eq_none {k : String} {body : List (String × Value)}
    (h : ∀ kv ∈ body, kv.1 ≠ k) : body.lookup k = none := by
  induction body with
  | nil => rfl
  | cons e rest ih =>
    obtain ⟨a, b⟩ := e
    have hne : ¬ k = a := fun he => h (a, b) (List.mem_cons_self _ _) he.symm
    have hb : (k == a) = false := by simpa using hne
    simp only [List.lookup, hb]
    exact ih (fun kv hkv => h kv (List.mem_cons_of_mem _ hkv))

theorem lookup_some_mem {k : String} {v : Value} {body : List (String × Value)}
    (h : body.lookup k = some v) : (k, v) ∈ body := by
  induction body with
  | nil => cases h
  | cons e rest ih =>
    obtain ⟨a, b⟩ := e
    by_cases he : k = a
    · subst he
      simp only [List.lookup, beq_self_eq_true] at h
      cases h
      exact List.mem_cons_self _ _
    · have hb : (k == a) = false := by simpa using he
      simp only [List.lookup, hb] at h
      exact List.mem_cons_of_mem _ (ih h)

theorem lookup_filter {k : String} (p : String → Bool) (hk : p k = true)
    (body : List (String × Value)) :
    (body.filter (fun kv => p kv.1)).lookup k = body.lookup k := by
  induction body with
  | nil => rfl
  | cons e rest ih =>
    obtain ⟨a, b⟩ := e
    by_cases hp : p a = true
    · rw [List.filter_cons_of_pos (by simpa using hp)]
      by_cases he : k = a
      · simp [List.lookup, he]
      · simp [List.lookup, he, ih]
    · rw [List.filter_cons_of_neg (by simpa using hp)]
      have he : ¬ k = a := fun he => hp (he ▸ hk)
      have hb : (k == a) = false := by simpa using he
      simp only [List.lookup, hb, ih]

theorem updateFieldsOf_filter (body : List (String × Value)) :
    updateFieldsOf (body.filter (fun kv => recognized kv.1)) = updateFieldsOf body := by
  unfold updateFieldsOf
  rw [lookup_filter recognized (by decide), lookup_filter recognized (by decide)]

theorem InsertOne_fresh {coll : Collection} {todo : Todo} {generated : ObjectID}
    (h : insertedID todo generated ∉ ids coll.docs) :
    (coll.InsertOne todo generated).1 = .ok (insertedID todo generated) ∧
    (coll.InsertOne todo generated).2.docs =
      coll.docs ++ [encodeTodo (insertedID todo generated) todo] := by
  unfold Collection.InsertOne
  rw [dif_neg h]
  exact ⟨rfl, rfl⟩

theorem InsertOne_duplicate {coll : Collection} {todo : Todo} {generated : ObjectID}
    (h : insertedID todo generated ∈ ids coll.docs) :
    coll.InsertOne todo generated = (.error .duplicateKey, coll) := by
  unfold Collection.InsertOne
  rw [dif_pos h]

theorem createTodo_fresh {coll : Collection} {todo : Todo} {generated : ObjectID}
    (hdesc : todo.Desc ≠ "") (h : insertedID todo generated ∉ ids coll.docs) :
    (createTodo coll (.ok todo) generated).1 =
      .ok ⟨201, .map [("data", .todo ⟨insertedID todo generated, todo.Completed, todo.Desc⟩),
        ("message", .text "Todo Created Successfully")]⟩ ∧
    (createTodo coll (.ok todo) generated).2.docs =
      coll.docs ++ [encodeTodo (insertedID todo generated) todo] := by
  have hI := InsertOne_fresh h
  rcases hres : coll.InsertOne todo generated with ⟨r, c⟩
  rw [hres] at hI
  simp only at hI
  obtain ⟨hr, hc⟩ := hI
  subst hr
  simp only [createTodo, if_neg hdesc, hres]
  exact ⟨trivial, hc⟩

theorem createTodo_duplicate {coll : Collection} {todo : Todo} {generated : ObjectID}
    (hdesc : todo.Desc ≠ "") (h : insertedID todo generated ∈ ids coll.docs) :
    createTodo coll (.ok todo) generated = (.error .duplicateKey, coll) := by
  simp only [createTodo, if_neg hdesc, InsertOne_duplicate h]

theorem mem_updateFirst {i : ObjectID} {f : Document → Document} {ds : List Document}
    {e : Document} (h : e ∈ updateFirst i f ds) : e ∈ ds ∨ ∃ d ∈ ds, e = f d := by
  induction ds with
  | nil => cases h
  | cons x rest ih =>
    unfold updateFirst at h
    split at h
    · rcases List.mem_cons.mp h with rfl | hmem
      · exact Or.inr ⟨x, List.mem_cons_self _ _, rfl⟩
      · exact Or.inl (List.mem_cons_of_mem _ hmem)
    · rcases List.mem_cons.mp h with rfl | hmem
      · exact Or.inl (List.mem_cons_self _ _)
      · rcases ih hmem with h1 | ⟨d, hd, he⟩
        · exact Or.inl (List.mem_cons_of_mem _ h1)
        · exact Or.inr ⟨d, List.mem_cons_of_mem _ hd, he⟩

theorem mem_removeFirst {i : ObjectID} {ds : List Document} {e : Document}
    (h : e ∈ removeFirst i ds) : e ∈ ds := by
  induction ds with
  | nil => cases h
  | cons x rest ih =>
    unfold removeFirst at h
    split at h
    · exact List.mem_cons_of_mem _ h
    · rcases List.mem_cons.mp h with rfl | hmem
      · exact List.mem_cons_self _ _
      · exact List.mem_cons_of_mem _ (ih hmem)

theorem applySet_updateFieldsOf_desc (body : List (String × Value)) (d : Document) :
    (applySet (updateFieldsOf body) d).desc =
      match body.lookup "desc" with
      | some v => v
      | none => d.desc := by
  unfold updateFieldsOf applySet
  cases body.lookup "completed" <;> cases body.lookup "desc" <;>
    simp [setField]

theorem createTodo_docs (coll : Collection) (parsed : Except Error Todo)
    (generated : ObjectID) :
    (createTodo coll parsed generated).2 = coll ∨
    ∃ todo, parsed = .ok todo ∧ todo.Desc ≠ "" ∧
      (createTodo coll parsed generated).2.docs =
        coll.docs ++ [encodeTodo (insertedID todo generated) todo] := by
  cases parsed with
  | error err => exact Or.inl rfl
  | ok todo =>
    by_cases hdesc : todo.Desc = ""
    · left
      simp [createTodo, hdesc]
    · by_cases hmem : insertedID todo generated ∈ ids coll.docs
      · left
        rw [createTodo_duplicate hdesc hmem]
      · exact Or.inr ⟨todo, rfl, hdesc, (createTodo_fresh hdesc hmem).2⟩

theorem updateTodo_docs (coll : Collection) (id : String)
    (parsed : Except Error (List (String × Value))) :
    (updateTodo coll id parsed).2 = coll ∨
    ∃ i body, parsed = .ok body ∧
      (updateTodo coll id parsed).2.docs =
        updateFirst i (applySet (updateFieldsOf body)) coll.docs := by
  unfold updateTodo
  split
  · exact Or.inl rfl
  · rename_i i hi
    split
    · exact Or.inl rfl
    · rename_i body
      split
      · exact Or.inl rfl
      · cases hf : findDoc i coll.docs with
        | none =>
          left
          rw [FindOneAndUpdate_missing _ hf]
        | some d =>
          right
          refine ⟨i, body, rfl, ?_⟩
          have hF := FindOneAndUpdate_found (updateFieldsOf body) hf
          rcases hres : coll.FindOneAndUpdate i (updateFieldsOf body) with ⟨r, c⟩
          rw [hres] at hF
          simp only at hF
          obtain ⟨hr, hc⟩ := hF
          subst hr
          simp only
          split <;> exact hc

/-- What the code keeps of the invariant: it holds for the empty collection; `getTodos`,
`createTodo` and `deleteTodo` preserve it for every request; `updateTodo` preserves it
when the body parser failed and when the body has no key `desc` or sets it to a
non-empty string. -/
theorem invariant_preserved_elsewhere (collection : Collection) (hinv : Invariant collection) :
    Invariant Collection.empty ∧
    (∀ id, Invariant (getTodos collection id).2) ∧
    (∀ parsed generated, Invariant (createTodo collection parsed generated).2) ∧
    (∀ id, Invariant (deleteTodo collection id).2) ∧
    (∀ id err, Invariant (updateTodo collection id (.error err)).2) ∧
    (∀ id body,
      (body.lookup "desc" = none ∨ ∃ s, s ≠ "" ∧ body.lookup "desc" = some (.string s)) →
      Invariant (updateTodo collection id (.ok body)).2) := by
  refine ⟨⟨fun d hd => absurd hd (List.not_mem_nil d), List.nodup_nil⟩, ?_, ?_, ?_, ?_, ?_⟩
  · intro id
    rw [getTodos_collection]
    exact hinv
  · intro parsed generated
    rcases createTodo_docs collection parsed generated with h | ⟨todo, _, hdesc, hdocs⟩
    · rw [h]; exact hinv
    · refine ⟨fun d hd => ?_, Collection.uniqueIds _⟩
      rw [hdocs] at hd
      rcases List.mem_append.mp hd with h1 | h1
      · exact hinv.1 d h1
      · rw [List.mem_singleton.mp h1]
        exact hdesc
  · intro id
    refine ⟨fun d hd => ?_, Collection.uniqueIds _⟩
    unfold deleteTodo at hd
    split at hd
    · exact hinv.1 d hd
    · exact hinv.1 d (mem_removeFirst hd)
  · intro id err
    rcases updateTodo_docs collection id (.error err) with h | ⟨i, body, hb, _⟩
    · rw [h]; exact hinv
    · cases hb
  · intro id body hdesc
    rcases updateTodo_docs collection id (.ok body) with h | ⟨i, body', hb, hdocs⟩
    · rw [h]; exact hinv
    · cases hb
      refine ⟨fun d hd => ?_, Collection.uniqueIds _⟩
      rw [hdocs] at hd
      rcases mem_updateFirst hd with h1 | ⟨e, he, rfl⟩
      · exact hinv.1 d h1
      · have hold := hinv.1 e he
        unfold NonEmptyDesc at hold ⊢
        rw [applySet_updateFieldsOf_desc]
        rcases hdesc with hnone | ⟨s, hs, hsome⟩
        · rw [hnone]
          exact hold
        · rw [hsome]
          exact hs

/-! ## Identifiers: the parser against the spec's wording -/

theorem char_le_iff (a b : Char) : a ≤ b ↔ a.toNat ≤ b.toNat := by
  rw [Char.le_def]
  exact Iff.rfl

theorem fromHexChar_isSome_iff (c : Char) :
    (fromHexChar c).isSome = true ↔ isHexDigit c = true := by
  unfold fromHexChar isHexDigit Char.isDigit
  have e0 : c.val ≥ 48 ↔ '0' ≤ c := Iff.rfl
  have e1 : c.val ≤ 57 ↔ c ≤ '9' := Iff.rfl
  simp only [Bool.or_eq_true, Bool.and_eq_true, decide_eq_true_eq, e0, e1]
  split
  · rename_i h; simp [h]
  · split
    · rename_i h; simp [h]
    · split
      · rename_i h; simp [h]
      · rename_i h1 h2 h3
        simp [h1, h2, h3]

theorem isHexDigit_utf8Size {c : Char} (h : isHexDigit c = true) : c.utf8Size = 1 := by
  have hle : c.toNat ≤ 102 := by
    unfold isHexDigit Char.isDigit at h
    have e1 : c.val ≤ 57 ↔ c ≤ '9' := Iff.rfl
    simp only [Bool.or_eq_true, Bool.and_eq_true, decide_eq_true_eq, e1, char_le_iff] at h
    have h9 : '9'.toNat = 57 := rfl
    have hf : 'f'.toNat = 102 := rfl
    have hF : 'F'.toNat = 70 := rfl
    omega
  unfold Char.utf8Size
  have : c.val ≤ 127 := by
    show c.toNat ≤ 127
    omega
  simp [this]

theorem hexDecode_some_all {cs : List Char} {acc n : Nat} (h : hexDecode cs acc = some n) :
    ∀ c ∈ cs, isHexDigit c = true := by
  induction cs generalizing acc with
  | nil => intro c hc; cases hc
  | cons x rest ih =>
    unfold hexDecode at h
    cases hx : fromHexChar x with
    | none => rw [hx] at h; cases h
    | some dgt =>
      rw [hx] at h
      intro c hc
      rcases List.mem_cons.mp hc with rfl | hmem
      · exact (fromHexChar_isSome_iff _).mp (by rw [hx]; rfl)
      · exact ih h c hmem

theorem hexDecode_all_some {cs : List Char} (h : ∀ c ∈ cs, isHexDigit c = true) (acc : Nat) :
    ∃ n, hexDecode cs acc = some n := by
  induction cs generalizing acc with
  | nil => exact ⟨acc, rfl⟩
  | cons x rest ih =>
    have hx := (fromHexChar_isSome_iff x).mpr (h x (List.mem_cons_self _ _))
    cases hd : fromHexChar x with
    | none => rw [hd] at hx; cases hx
    | some dgt =>
      unfold hexDecode
      rw [hd]
      exact ih (fun c hc => h c (List.mem_cons_of_mem _ hc)) _

theorem utf8ByteSize_go_hex {cs : List Char} (h : ∀ c ∈ cs, isHexDigit c = true) :
    String.utf8ByteSize.go cs = cs.length := by
  induction cs with
  | nil => rfl
  | cons x rest ih =>
    unfold String.utf8ByteSize.go
    rw [ih (fun c hc => h c (List.mem_cons_of_mem _ hc)),
      isHexDigit_utf8Size (h x (List.mem_cons_self _ _))]
    rfl

/-- The parser accepts exactly the 24-character hex strings. -/
theorem ObjectIDFromHex_isSome_iff (s : String) :
    (∃ i, ObjectIDFromHex s = some i) ↔ WellFormedID s := by
  have hsize : s.utf8ByteSize = String.utf8ByteSize.go s.data := by
    cases s; rfl
  constructor
  · rintro ⟨i, hi⟩
    unfold ObjectIDFromHex at hi
    split at hi
    · cases hi
    · rename_i h24
      cases hdec : hexDecode s.data 0 with
      | none => rw [hdec] at hi; cases hi
      | some n =>
        have hall := hexDecode_some_all hdec
        refine ⟨?_, hall⟩
        rw [String.length, ← utf8ByteSize_go_hex hall, ← hsize]
        exact not_not.mp h24
  · rintro ⟨hlen, hall⟩
    obtain ⟨n, hn⟩ := hexDecode_all_some hall 0
    refine ⟨⟨n⟩, ?_⟩
    unfold ObjectIDFromHex
    have h24 : s.utf8ByteSize = 24 := by
      rw [hsize, utf8ByteSize_go_hex hall]
      exact hlen
    simp [h24, hn]

theorem ObjectIDFromHex_none {s : String} (h : ¬ WellFormedID s) : ObjectIDFromHex s = none := by
  cases hs : ObjectIDFromHex s with
  | none => rfl
  | some i => exact absurd ((ObjectIDFromHex_isSome_iff s).mp ⟨i, hs⟩) h

/-! ## Creating a todo -/

/-- Claim C1: a create request whose decoded body has a non-empty description, and
whose insert does not fail, is answered 201 with the map of `data` and `message`; the
collection gains exactly one document, which carries the description and the completed
flag of the request; the identifier of the returned entity is the one of that stored
document, and no document that was in the collection before has it. -/
theorem createTodo_created (collection : Collection) (todo : Todo) (generated : ObjectID)
    (hdesc : todo.Desc ≠ "")
    (hins : ∀ err, (collection.InsertOne todo generated).1 ≠ .error err) :
    ∃ oid coll,
      createTodo collection (.ok todo) generated =
        (.ok ⟨201, .map [("data", .todo ⟨oid, todo.Completed, todo.Desc⟩),
          ("message", .text "Todo Created Successfully")]⟩, coll) ∧
      (serve (createTodo collection (.ok todo) generated).1).status = 201 ∧
      coll.docs = collection.docs ++ [⟨oid, .bool todo.Completed, .string todo.Desc⟩] ∧
      coll.FindOne oid = .ok ⟨oid, .bool todo.Completed, .string todo.Desc⟩ ∧
      ∀ d ∈ collection.docs, d.id ≠ oid := by
  by_cases hmem : insertedID todo generated ∈ ids collection.docs
  · exact absurd (by rw [InsertOne_duplicate hmem]) (hins .duplicateKey)
  · obtain ⟨hresp, hdocs⟩ := createTodo_fresh hdesc hmem
    have hfresh : ∀ d ∈ collection.docs, d.id ≠ insertedID todo generated := by
      intro d hd he
      exact hmem (he ▸ List.mem_map_of_mem Document.id hd)
    refine ⟨insertedID todo generated, (createTodo collection (.ok todo) generated).2,
      Prod.ext hresp rfl, ?_, hdocs, ?_, hfresh⟩
    · rw [hresp]
      rfl
    · have hfind := findDoc_of_mem
        (createTodo collection (.ok todo) generated).2.uniqueIds
        (hdocs ▸ List.mem_append_right _ (List.mem_singleton.mpr rfl) :
          encodeTodo (insertedID todo generated) todo ∈
            (createTodo collection (.ok todo) generated).2.docs)
      simp only [Collection.FindOne]
      simp only [encodeTodo] at hfind
      rw [hfind]

/-- Witness of C1: the todo "buy milk" created in the empty collection. -/
theorem createTodo_created_witness :
    ("buy milk" ≠ "" ∧
      ∀ err, (Collection.empty.InsertOne ⟨⟨0⟩, false, "buy milk"⟩ ⟨10⟩).1 ≠ .error err) ∧
    ∃ oid coll,
      createTodo Collection.empty (.ok ⟨⟨0⟩, false, "buy milk"⟩) ⟨10⟩ =
        (.ok ⟨201, .map [("data", .todo ⟨oid, false, "buy milk"⟩),
          ("message", .text "Todo Created Successfully")]⟩, coll) ∧
      (serve (createTodo Collection.empty (.ok ⟨⟨0⟩, false, "buy milk"⟩) ⟨10⟩).1).status = 201 ∧
      coll.docs = Collection.empty.docs ++ [⟨oid, .bool false, .string "buy milk"⟩] ∧
      coll.FindOne oid = .ok ⟨oid, .bool false, .string "buy milk"⟩ ∧
      ∀ d ∈ Collection.empty.docs, d.id ≠ oid :=
  ⟨⟨by decide, fun err h => by cases h⟩,
    createTodo_created Collection.empty ⟨⟨0⟩, false, "buy milk"⟩ ⟨10⟩ (by decide)
      (fun err h => by cases h)⟩

/-- Claim C2: a create request whose body decodes to a todo with an empty (or absent,
which decodes to empty) description is answered 400, and the collection afterwards is
the collection before. -/
theorem createTodo_empty_desc (collection : Collection) (todo : Todo) (generated : ObjectID)
    (hdesc : todo.Desc = "") :
    createTodo collection (.ok todo) generated =
      (.ok ⟨400, .map [("error", .text "Todo Description cannot be empty")]⟩, collection) ∧
    (serve (createTodo collection (.ok todo) generated).1).status = 400 ∧
    (createTodo collection (.ok todo) generated).2 = collection := by
  simp [createTodo, hdesc, serve]

/-- Witness of C2: a body without description, sent to the collection holding one todo. -/
theorem createTodo_empty_desc_witness :
    (⟨⟨0⟩, true, ""⟩ : Todo).Desc = "" ∧
    createTodo milk (.ok ⟨⟨0⟩, true, ""⟩) ⟨11⟩ =
      (.ok ⟨400, .map [("error", .text "Todo Description cannot be empty")]⟩, milk) ∧
    (serve (createTodo milk (.ok ⟨⟨0⟩, true, ""⟩) ⟨11⟩).1).status = 400 ∧
    (createTodo milk (.ok ⟨⟨0⟩, true, ""⟩) ⟨11⟩).2 = milk :=
  ⟨rfl, createTodo_empty_desc milk ⟨⟨0⟩, true, ""⟩ ⟨11⟩ rfl⟩

/-- Claim C5, as stated, fails: a body carrying the well-formed non-zero identifier 7
and the description "buy milk" is stored and returned under the identifier 7 that the
body supplied, not under the identifier 10 that the storage layer would have chosen,
and with the identifier 8 in the body the stored identifier is 8. -/
theorem createTodo_keeps_supplied_id :
    (createTodo Collection.empty (.ok ⟨⟨7⟩, false, "buy milk"⟩) ⟨10⟩).1 =
      .ok ⟨201, .map [("data", .todo ⟨⟨7⟩, false, "buy milk"⟩),
        ("message", .text "Todo Created Successfully")]⟩ ∧
    (createTodo Collection.empty (.ok ⟨⟨7⟩, false, "buy milk"⟩) ⟨10⟩).2.docs =
      [⟨⟨7⟩, .bool false, .string "buy milk"⟩] ∧
    ids (createTodo Collection.empty (.ok ⟨⟨7⟩, false, "buy milk"⟩) ⟨10⟩).2.docs ≠ [⟨10⟩] ∧
    ids (createTodo Collection.empty (.ok ⟨⟨8⟩, false, "buy milk"⟩) ⟨10⟩).2.docs ≠
      ids (createTodo Collection.empty (.ok ⟨⟨7⟩, false, "buy milk"⟩) ⟨10⟩).2.docs :=
  ⟨rfl, rfl, by decide, by decide⟩

/-- Claim C5, amended: for a create request with a non-empty description, a body
without identifier (or with the all-zero one) is stored and returned under the
identifier the storage layer chose; a body with a non-zero identifier is stored and
returned under that supplied identifier when no stored document has it, whatever the
storage layer would have chosen, and is refused with a duplicate key error, answered
500, the collection unchanged, when a stored document has it. -/
theorem createTodo_identifier (collection : Collection) (todo : Todo) (generated : ObjectID)
    (hdesc : todo.Desc ≠ "") :
    (todo.ID = NilObjectID → generated ∉ ids collection.docs →
      (createTodo collection (.ok todo) generated).1 =
        .ok ⟨201, .map [("data", .todo ⟨generated, todo.Completed, todo.Desc⟩),
          ("message", .text "Todo Created Successfully")]⟩ ∧
      (createTodo collection (.ok todo) generated).2.docs =
        collection.docs ++ [⟨generated, .bool todo.Completed, .string todo.Desc⟩]) ∧
    (todo.ID ≠ NilObjectID → todo.ID ∉ ids collection.docs →
      (createTodo collection (.ok todo) generated).1 =
        .ok ⟨201, .map [("data", .todo ⟨todo.ID, todo.Completed, todo.Desc⟩),
          ("message", .text "Todo Created Successfully")]⟩ ∧
      (createTodo collection (.ok todo) generated).2.docs =
        collection.docs ++ [⟨todo.ID, .bool todo.Completed, .string todo.Desc⟩]) ∧
    (todo.ID ≠ NilObjectID → todo.ID ∈ ids collection.docs →
      createTodo collection (.ok todo) generated = (.error .duplicateKey, collection) ∧
      (serve (createTodo collection (.ok todo) generated).1).status = 500) := by
  refine ⟨?_, ?_, ?_⟩
  · intro hz hfresh
    have hI : insertedID todo generated = generated := by
      simp [insertedID, ObjectID.IsZero, hz]
    have hc := @createTodo_fresh collection todo generated hdesc (by rw [hI]; exact hfresh)
    rw [hI] at hc
    exact hc
  · intro hz hfresh
    have hI : insertedID todo generated = todo.ID := by
      simp [insertedID, ObjectID.IsZero, hz]
    have hc := @createTodo_fresh collection todo generated hdesc (by rw [hI]; exact hfresh)
    rw [hI] at hc
    exact hc
  · intro hz hdup
    have hI : insertedID todo generated = todo.ID := by
      simp [insertedID, ObjectID.IsZero, hz]
    have hc := @createTodo_duplicate collection todo generated hdesc
      (by rw [hI]; exact hdup)
    rw [hc]
    exact ⟨rfl, rfl⟩

/-- Witness of C5, amended: the body with the identifier 10, sent to the collection
that already holds a todo under the identifier 10. -/
theorem createTodo_identifier_witness :
    "eggs" ≠ "" ∧
    ((⟨10⟩ : ObjectID) = NilObjectID → (⟨11⟩ : ObjectID) ∉ ids milk.docs →
      (createTodo milk (.ok ⟨⟨10⟩, false, "eggs"⟩) ⟨11⟩).1 =
        .ok ⟨201, .map [("data", .todo ⟨⟨11⟩, false, "eggs"⟩),
          ("message", .text "Todo Created Successfully")]⟩ ∧
      (createTodo milk (.ok ⟨⟨10⟩, false, "eggs"⟩) ⟨11⟩).2.docs =
        milk.docs ++ [⟨⟨11⟩, .bool false, .string "eggs"⟩]) ∧
    ((⟨10⟩ : ObjectID) ≠ NilObjectID → (⟨10⟩ : ObjectID) ∉ ids milk.docs →
      (createTodo milk (.ok ⟨⟨10⟩, false, "eggs"⟩) ⟨11⟩).1 =
        .ok ⟨201, .map [("data", .todo ⟨⟨10⟩, false, "eggs"⟩),
          ("message", .text "Todo Created Successfully")]⟩ ∧
      (createTodo milk (.ok ⟨⟨10⟩, false, "eggs"⟩) ⟨11⟩).2.docs =
        milk.docs ++ [⟨⟨10⟩, .bool false, .string "eggs"⟩]) ∧
    ((⟨10⟩ : ObjectID) ≠ NilObjectID → (⟨10⟩ : ObjectID) ∈ ids milk.docs →
      createTodo milk (.ok ⟨⟨10⟩, false, "eggs"⟩) ⟨11⟩ = (.error .duplicateKey, milk) ∧
      (serve (createTodo milk (.ok ⟨⟨10⟩, false, "eggs"⟩) ⟨11⟩).1).status = 500) :=
  ⟨by decide, createTodo_identifier milk ⟨⟨10⟩, false, "eggs"⟩ ⟨11⟩ (by decide)⟩

/-! ## Updating a todo -/

/-- Claim C6: for a non-empty path identifier that is not a well-formed storage
identifier (not a 24-character hex string), `getTodos`, `updateTodo` and `deleteTodo`
each answer 400 "Invalid todo ID" and leave the collection as it was; for `updateTodo`
whatever the body parser returned, an error included. -/
theorem invalid_id_rejected (collection : Collection) (id : String)
    (parsed : Except Error (List (String × Value)))
    (hne : id ≠ "") (hbad : ¬ WellFormedID id) :
    getTodos collection id =
      (.ok ⟨400, .map [("error", .text "Invalid todo ID")]⟩, collection) ∧
    updateTodo collection id parsed =
      (.ok ⟨400, .map [("error", .text "Invalid todo ID")]⟩, collection) ∧
    deleteTodo collection id =
      (.ok ⟨400, .map [("error", .text "Invalid todo ID")]⟩, collection) := by
  have hnone := ObjectIDFromHex_none hbad
  refine ⟨?_, ?_, ?_⟩
  · simp only [getTodos, if_neg hne, hnone]
  · simp only [updateTodo, hnone]
  · simp only [deleteTodo, hnone]

/-- Witness of C6: the identifier "milk" against the collection holding one todo, with
a body that sets a recognized field. -/
theorem invalid_id_rejected_witness :
    ("milk" ≠ "" ∧ ¬ WellFormedID "milk") ∧
    getTodos milk "milk" =
      (.ok ⟨400, .map [("error", .text "Invalid todo ID")]⟩, milk) ∧
    updateTodo milk "milk" (.ok [("completed", .bool true)]) =
      (.ok ⟨400, .map [("error", .text "Invalid todo ID")]⟩, milk) ∧
    deleteTodo milk "milk" =
      (.ok ⟨400, .map [("error", .text "Invalid todo ID")]⟩, milk) :=
  ⟨⟨by decide, fun h => absurd h.1 (by decide)⟩,
    invalid_id_rejected milk "milk" (.ok [("completed", .bool true)]) (by decide)
      (fun h => absurd h.1 (by decide))⟩

/-! ## Reading todos -/

/-- Claim C8, as stated, fails: the collection holding "buy milk" under the identifier
10, after `updateTodo` with the body `{"desc": 5}` was answered 200, holds one
document; `getTodos` without identifier returns an error and no response, neither the
sentinel nor an array, and is answered 500, not 200. -/
theorem getTodos_list_undecodable :
    (updateTodo milk milkID (.ok [("desc", .number 5)])).1 =
      .ok ⟨200, .map [("data", .todo ⟨⟨10⟩, false, "buy milk"⟩),
        ("message", .text "Todo Updated Successfully")]⟩ ∧
    (updateTodo milk milkID (.ok [("desc", .number 5)])).2.docs =
      [⟨⟨10⟩, .bool false, .number 5⟩] ∧
    (∀ resp, (getTodos (updateTodo milk milkID (.ok [("desc", .number 5)])).2 "").1 ≠
      .ok resp) ∧
    (serve (getTodos (updateTodo milk milkID (.ok [("desc", .number 5)])).2 "").1).status =
      500 :=
  ⟨rfl, rfl, fun _ h => Except.noConfusion h, rfl⟩

/-- Claim C8, amended: `getTodos` without identifier leaves every collection as it
was; for a collection of todo records (every stored document decodes as a todo) it is
answered 200, the body is the sentinel map `data: "Todos Not Available"` exactly when
the collection has no document, and otherwise the array of the stored documents, each
once, in iteration order; the listing after one insert into the empty collection is the
one-element array of the entity that the insert returned. -/
theorem getTodos_list (collection : Collection) :
    (getTodos collection "").2 = collection ∧
    ((∀ d ∈ collection.docs, ∃ t, decodeTodo d = .ok t) →
      (serve (getTodos collection "").1).status = 200 ∧
      ((getTodos collection "").1 =
          .ok ⟨200, .map [("data", .text "Todos Not Available")]⟩ ↔ collection.docs = []) ∧
      (collection.docs ≠ [] →
        ∃ todos, (getTodos collection "").1 = .ok ⟨200, .todos todos⟩ ∧
          List.Forall₂ (fun d t => decodeTodo d = .ok t) collection.docs todos)) ∧
    (∀ (todo : Todo) (generated : ObjectID) (stored : Todo) (coll : Collection),
      createTodo Collection.empty (.ok todo) generated =
        (.ok ⟨201, .map [("data", .todo stored),
          ("message", .text "Todo Created Successfully")]⟩, coll) →
      getTodos coll "" = (.ok ⟨200, .todos [stored]⟩, coll)) := by
  refine ⟨getTodos_collection collection "", ?_, ?_⟩
  · intro htodo
    obtain ⟨todos, hdec, hall⟩ := decodeCursor_all htodo
    have hlen : todos.length = collection.docs.length := hall.length_eq.symm
    refine ⟨?_, ?_, ?_⟩
    · simp only [getTodos, if_true, Collection.Find, hdec]
      split <;> rfl
    · simp only [getTodos, if_true, Collection.Find, hdec]
      constructor
      · intro h
        by_cases h0 : todos.length = 0
        · rw [h0] at hlen
          exact List.length_eq_zero.mp hlen.symm
        · rw [if_neg h0] at h
          cases h
      · intro h
        have h0 : todos.length = 0 := by rw [hlen, h]; rfl
        rw [if_pos h0]
    · intro hne
      refine ⟨todos, ?_, hall⟩
      have h0 : todos.length ≠ 0 := by
        rw [hlen]
        exact fun h => hne (List.length_eq_zero.mp h)
      simp only [getTodos, if_true, Collection.Find, hdec, if_neg h0]
  · intro todo generated stored coll hc
    unfold createTodo at hc
    simp only at hc
    split at hc
    · cases hc
    · have hmem : insertedID todo generated ∉ ids Collection.empty.docs := by
        simp [Collection.empty, ids]
      simp only [Collection.InsertOne, dif_neg hmem] at hc
      cases hc
      rfl

/-- Witness of C8, amended: the listing of the collection holding the one todo
"buy milk". -/
theorem getTodos_list_witness :
    (∀ d ∈ milk.docs, ∃ t, decodeTodo d = .ok t) ∧
    (getTodos milk "").2 = milk ∧
    (serve (getTodos milk "").1).status = 200 ∧
    ((getTodos milk "").1 =
        .ok ⟨200, .map [("data", .text "Todos Not Available")]⟩ ↔ milk.docs = []) ∧
    (milk.docs ≠ [] →
      ∃ todos, (getTodos milk "").1 = .ok ⟨200, .todos todos⟩ ∧
        List.Forall₂ (fun d t => decodeTodo d = .ok t) milk.docs todos) :=
  have hmilk : ∀ d ∈ milk.docs, ∃ t, decodeTodo d = .ok t := fun d hd => by
    rw [List.mem_singleton.mp hd]
    exact ⟨_, rfl⟩
  ⟨hmilk, (getTodos_list milk).1, (getTodos_list milk).2.1 hmilk⟩

/-! ## Deleting a todo -/

/-- Claim C9: for a well-formed identifier `i`, `deleteTodo` is answered 200 with the
success message whether or not a document with identifier `i` exists; afterwards the
collection has no document with identifier `i`, the documents with another identifier
are the ones it had, and deleting `i` once more gives the same response and the same
collection. -/
theorem deleteTodo_idempotent (collection : Collection) (id : String) (i : ObjectID)
    (hid : ObjectIDFromHex id = some i) :
    (deleteTodo collection id).1 =
      .ok ⟨200, .map [("message", .text "Todo Deleted Successfully")]⟩ ∧
    (serve (deleteTodo collection id).1).status = 200 ∧
    (∀ d ∈ (deleteTodo collection id).2.docs, d.id ≠ i) ∧
    (∀ d : Document, d.id ≠ i →
      (d ∈ (deleteTodo collection id).2.docs ↔ d ∈ collection.docs)) ∧
    (deleteTodo collection id).2.docs =
      collection.docs.filter (fun d => decide (d.id ≠ i)) ∧
    deleteTodo (deleteTodo collection id).2 id = deleteTodo collection id := by
  have hdel : ∀ c : Collection, deleteTodo c id =
      (.ok ⟨200, .map [("message", .text "Todo Deleted Successfully")]⟩, c.DeleteOne i) := by
    intro c
    simp only [deleteTodo, hid]
  have hdocs : ∀ c : Collection, (c.DeleteOne i).docs =
      c.docs.filter (fun d => decide (d.id ≠ i)) := fun c =>
    removeFirst_eq_filter i c.docs c.uniqueIds
  rw [hdel collection]
  refine ⟨rfl, rfl, ?_, ?_, hdocs collection, ?_⟩
  · intro d hd
    simp only [hdocs, List.mem_filter, decide_eq_true_eq] at hd
    exact hd.2
  · intro d hd
    simp only [hdocs, List.mem_filter, decide_eq_true_eq]
    exact ⟨fun h => h.1, fun h => ⟨h, hd⟩⟩
  · rw [hdel]
    have : (collection.DeleteOne i).DeleteOne i = collection.DeleteOne i := by
      apply Collection.ext_docs
      rw [hdocs, hdocs, List.filter_filter]
      simp
    rw [this]

/-- Witness of C9: the identifier 10 deleted from the collection holding it. -/
theorem deleteTodo_idempotent_witness :
    ObjectIDFromHex milkID = some ⟨10⟩ ∧
    (deleteTodo milk milkID).1 =
      .ok ⟨200, .map [("message", .text "Todo Deleted Successfully")]⟩ ∧
    (serve (deleteTodo milk milkID).1).status = 200 ∧
    (∀ d ∈ (deleteTodo milk milkID).2.docs, d.id ≠ ⟨10⟩) ∧
    (∀ d : Document, d.id ≠ ⟨10⟩ →
      (d ∈ (deleteTodo milk milkID).2.docs ↔ d ∈ milk.docs)) ∧
    (deleteTodo milk milkID).2.docs =
      milk.docs.filter (fun d => decide (d.id ≠ ⟨10⟩)) ∧
    deleteTodo (deleteTodo milk milkID).2 milkID = deleteTodo milk milkID :=
  ⟨by decide, deleteTodo_idempotent milk milkID ⟨10⟩ (by decide)⟩

/-! ## Updates without a recognized field -/

/-- Claim C10: for a well-formed identifier and a decoded body without the key
`completed` and without the key `desc` (the empty object and the bodies of
unrecognized keys among them), `updateTodo` is answered 400 "No valid fields to
update" and leaves the collection as it was; for every body, the fields handed to
`$set` are recognized keys with the values of the body, and the outcome of the update
is the outcome for the body without its unrecognized keys. -/
theorem updateTodo_no_fields (collection : Collection) (id : String) (i : ObjectID)
    (body : List (String × Value)) (hid : ObjectIDFromHex id = some i) :
    ((∀ kv ∈ body, kv.1 ≠ "completed" ∧ kv.1 ≠ "desc") →
      updateTodo collection id (.ok body) =
        (.ok ⟨400, .map [("error", .text "No valid fields to update")]⟩, collection)) ∧
    (∀ kv ∈ updateFieldsOf body, recognized kv.1 = true ∧ kv ∈ body) ∧
    updateTodo collection id (.ok body) =
      updateTodo collection id (.ok (body.filter (fun kv => recognized kv.1))) := by
  refine ⟨?_, ?_, ?_⟩
  · intro h
    have hc : body.lookup "completed" = none := lookup_eq_none (fun kv hkv => (h kv hkv).1)
    have hd : body.lookup "desc" = none := lookup_eq_none (fun kv hkv => (h kv hkv).2)
    have hf : updateFieldsOf body = [] := by simp [updateFieldsOf, hc, hd]
    simp only [updateTodo, hid, hf, List.length_nil, if_true]
  · intro kv hkv
    unfold updateFieldsOf at hkv
    rcases List.mem_append.mp hkv with h | h
    · cases hc : body.lookup "completed" with
      | none => rw [hc] at h; cases h
      | some v =>
        rw [hc] at h
        rw [List.mem_singleton.mp h]
        exact ⟨rfl, lookup_some_mem hc⟩
    · cases hd : body.lookup "desc" with
      | none => rw [hd] at h; cases h
      | some v =>
        rw [hd] at h
        rw [List.mem_singleton.mp h]
        exact ⟨rfl, lookup_some_mem hd⟩
  · simp only [updateTodo, updateFieldsOf_filter]

/-- Witness of C10: a body of one unrecognized key, sent for the identifier 10. -/
theorem updateTodo_no_fields_witness :
    ObjectIDFromHex milkID = some ⟨10⟩ ∧
    ((∀ kv ∈ [("title", Value.string "x")], kv.1 ≠ "completed" ∧ kv.1 ≠ "desc") →
      updateTodo milk milkID (.ok [("title", .string "x")]) =
        (.ok ⟨400, .map [("error", .text "No valid fields to update")]⟩, milk)) ∧
    (∀ kv ∈ updateFieldsOf [("title", Value.string "x")],
      recognized kv.1 = true ∧ kv ∈ [("title", Value.string "x")]) ∧
    updateTodo milk milkID (.ok [("title", .string "x")]) =
      updateTodo milk milkID
        (.ok ([("title", Value.string "x")].filter (fun kv => recognized kv.1))) :=
  ⟨by decide, updateTodo_no_fields milk milkID ⟨10⟩ [("title", .string "x")] (by decide)⟩

/-! ## The invariant of the data model -/

/-- Claim C4 fails on the code: the collection holding "buy milk" under the identifier
10 is what `createTodo` makes of the empty collection, and it satisfies the invariant;
`updateTodo` with the body `{"desc": ""}` is answered 200 and leaves the stored
description empty, and with the body `{"desc": 5}` it leaves a number as the
stored description; the invariant holds after neither. -/
theorem updateTodo_breaks_invariant :
    (createTodo Collection.empty (.ok ⟨⟨0⟩, false, "buy milk"⟩) ⟨10⟩).2 = milk ∧
    Invariant Collection.empty ∧ Invariant milk ∧
    (updateTodo milk milkID (.ok [("desc", .string "")])).1 =
      .ok ⟨200, .map [("data", .todo ⟨⟨10⟩, false, "buy milk"⟩),
        ("message", .text "Todo Updated Successfully")]⟩ ∧
    (updateTodo milk milkID (.ok [("desc", .string "")])).2.docs =
      [⟨⟨10⟩, .bool false, .string ""⟩] ∧
    ¬ Invariant (updateTodo milk milkID (.ok [("desc", .string "")])).2 ∧
    (updateTodo milk milkID (.ok [("desc", .number 5)])).2.docs =
      [⟨⟨10⟩, .bool false, .number 5⟩] ∧
    ¬ Invariant (updateTodo milk milkID (.ok [("desc", .number 5)])).2 := by
  have h1 : (updateTodo milk milkID (.ok [("desc", .string "")])).2.docs =
      [⟨⟨10⟩, .bool false, .string ""⟩] := rfl
  have h2 : (updateTodo milk milkID (.ok [("desc", .number 5)])).2.docs =
      [⟨⟨10⟩, .bool false, .number 5⟩] := rfl
  refine ⟨?_, ?_, ?_, ?_, h1, ?_, h2, ?_⟩
  · rfl
  · exact ⟨fun d hd => absurd hd (List.not_mem_nil d), List.nodup_nil⟩
  · refine ⟨fun d hd => ?_, milk.uniqueIds⟩
    rw [List.mem_singleton.mp hd]
    show "buy milk" ≠ ""
    decide
  · rfl
  · intro hinv
    have := hinv.1 _ (h1 ▸ List.mem_singleton.mpr rfl)
    exact this rfl
  · intro hinv
    exact hinv.1 _ (h2 ▸ List.mem_singleton.mpr rfl)

end GoTodo
